import Mathlib

/-!
Shallow embedding of `src/server/build-server.py` (nixserve build server).

The server's pure logic is translated function by function.  External
collaborators (systemd via `systemctl`, the filesystem, `tail(1)`, the JSON
parser together with pydantic validation) are modelled by an explicit
environment `Env` describing their observable behaviour; the Python string
operations the server applies to their output (`split`, `replace`, `strip`,
`in`, `sorted(set(..))`) are embedded as executable functions on `List Char`.
-/

namespace NixServe

/-! ## Python string primitives, modelled on `List Char` -/

/-- Whitespace test used by Python `str.split()` and `str.strip()`
(ASCII whitespace; the tool output handled here is ASCII). -/
def pyWs (c : Char) : Bool :=
  c == ' ' || c == '\t' || c == '\n' || c == '\r' || c == '\x0b' || c == '\x0c'

/-- Test whether `pat` is a leading segment of `s` (used to locate substring
occurrences, as Python `str.replace` and `in` do). -/
def leadsChars : List Char → List Char → Bool
  | [], _ => true
  | _ :: _, [] => false
  | a :: pa, b :: rest => a == b && leadsChars pa rest

/-- Python `pat in s` substring test. -/
def containsChars (pat : List Char) : List Char → Bool
  | [] => leadsChars pat []
  | c :: cs => leadsChars pat (c :: cs) || containsChars pat cs

/-- Python `s.replace(old, new)`: replace every non-overlapping occurrence of a
nonempty `old`, scanning left to right.  The extra `Nat` argument is fuel
keeping the recursion structural; every step consumes at least one character of
the string, so `s.length` fuel always suffices. -/
def replaceFuel (old new : List Char) : Nat → List Char → List Char
  | 0, s => s
  | _ + 1, [] => []
  | fuel + 1, c :: cs =>
    if leadsChars old (c :: cs) then
      new ++ replaceFuel old new fuel (List.drop (old.length - 1) cs)
    else
      c :: replaceFuel old new fuel cs

/-- Python `s.replace(old, new)` on strings. -/
def pyReplace (s old new : String) : String :=
  String.mk (replaceFuel old.data new.data s.data.length s.data)

/-- Python `s.split()` with no argument: split on whitespace runs, dropping
empty tokens. -/
def pySplitWs (s : String) : List String :=
  ((s.data.splitOnP pyWs).filter (fun t => !t.isEmpty)).map String.mk

/-- Python `s.split("\n")` on character lists: split at every newline, keeping
empty segments (`List.splitOn` has exactly these semantics). -/
def nlSplitChars (s : List Char) : List (List Char) := s.splitOn '\n'

/-- Python `s.split("\n")` on strings. -/
def pySplitNl (s : String) : List String := (nlSplitChars s.data).map String.mk

/-- Python `s.strip()`. -/
def pyStrip (s : String) : String :=
  String.mk (((s.data.dropWhile pyWs).reverse.dropWhile pyWs).reverse)

/-- Python `pat in s`. -/
def pyContains (s pat : String) : Bool := containsChars pat.data s.data

/-- Lexicographic code-point comparison on character lists (the order Python
uses to compare strings). -/
def charListLt : List Char → List Char → Bool
  | [], [] => false
  | [], _ :: _ => true
  | _ :: _, [] => false
  | a :: as, b :: bs => a.toNat < b.toNat || (a == b && charListLt as bs)

/-- Python `a < b` on strings. -/
def strLt (a b : String) : Bool := charListLt a.data b.data

/-- Insert into an ascending sorted list of strings. -/
def insertSorted (x : String) : List String → List String
  | [] => [x]
  | y :: ys => if strLt y x then y :: insertSorted x ys else x :: y :: ys

/-- Python `sorted` on strings (ascending code-point order). -/
def pySortedStrings : List String → List String
  | [] => []
  | x :: xs => insertSorted x (pySortedStrings xs)

/-- Python `sorted(set(l))`: deduplicate, then sort ascending. -/
def pySortedSet (l : List String) : List String := pySortedStrings l.eraseDups

/-! ## Data model (the pydantic models of the server) -/

/-- Values of the `Literal["success", "failed"]` field `last_status`. -/
inductive LastStatus where
  | success
  | failed
deriving DecidableEq, Repr

/-- Pydantic model `BuildStatus`.  The `datetime | None` fields are kept as
opaque optional strings: no logic in the server inspects their structure. -/
structure BuildStatus where
  is_running : Bool
  last_start : Option String := none
  last_finish : Option String := none
  last_status : Option LastStatus := none
  last_commit : Option String := none
  repository : String
deriving DecidableEq, Repr

/-- Values of the `Literal["triggered", "already_running"]` field. -/
inductive TriggerStatus where
  | triggered
  | already_running
deriving DecidableEq, Repr

/-- Pydantic model `BuildTriggerResponse`. -/
structure BuildTriggerResponse where
  status : TriggerStatus
  message : String
  repository : String
deriving DecidableEq, Repr

/-- Values of the `Literal["healthy", "degraded", "down"]` field.  The `down`
constructor exists in the model even though no code path produces it. -/
inductive HealthStatus where
  | healthy
  | degraded
  | down
deriving DecidableEq, Repr

/-- Pydantic model `HealthCheck`. -/
structure HealthCheck where
  status : HealthStatus
  cache_running : Bool
  repositories : List String
deriving DecidableEq, Repr

/-- A FastAPI `HTTPException`: status code and detail message. -/
structure HttpError where
  status_code : Nat
  detail : String
deriving DecidableEq, Repr

/-- Decidable equality for `Except`, so concrete endpoint results can be
checked by `decide`. -/
instance {e a : Type} [DecidableEq e] [DecidableEq a] : DecidableEq (Except e a) := fun x y =>
  match x, y with
  | .ok u, .ok v =>
    if h : u = v then .isTrue (h ▸ rfl) else .isFalse fun he => h (Except.ok.inj he)
  | .error u, .error v =>
    if h : u = v then .isTrue (h ▸ rfl) else .isFalse fun he => h (Except.error.inj he)
  | .ok _, .error _ => .isFalse fun he => Except.noConfusion he
  | .error _, .ok _ => .isFalse fun he => Except.noConfusion he

/-- Outcome of reading and validating one persisted status file:
`ok s` models `json.loads(status_file.read_text())` succeeding and
`BuildStatus(**data)` validating to `s` (including whatever `is_running`
value the file itself carried); `error` models any exception raised while
reading, parsing or validating the file. -/
inductive StatusRead where
  | ok (s : BuildStatus)
  | error
deriving DecidableEq, Repr

/-! ## Environment: observable behaviour of the external collaborators -/

/-- State of the external world at the time one request is handled. -/
structure Env where
  /-- stdout of `systemctl list-units --all nix-build-* --no-pager --no-legend`. -/
  listUnitsStdout : String
  /-- stdout of `systemctl is-active <unit>`, keyed by unit name. -/
  isActiveStdout : String → String
  /-- Persisted status file `DATA_DIR/status/{repo}.json`, keyed by repository:
  `none` when the file does not exist, otherwise the outcome of reading it. -/
  statusFile : String → Option StatusRead
  /-- Log file `DATA_DIR/logs/{repo}.log`, keyed by repository: `none` when the
  file does not exist, otherwise its full content. -/
  logFile : String → Option String
  /-- Whether `sudo systemctl start <unit>` exits with status 0, keyed by unit
  name. -/
  startUnitOk : String → Bool
  /-- stderr of a failed `sudo systemctl start <unit>`, keyed by unit name. -/
  startStderr : String → String

/-! ## Helper functions of the server -/

/-- `get_available_repos`: parse the `systemctl list-units` output.  For every
line containing `"nix-build-"`, take the first whitespace token, drop
`".service"` and `"nix-build-"`, and return the names deduplicated and
sorted (`sorted(set(repos))`). -/
def get_available_repos (env : Env) : List String :=
  let repos := (pySplitNl env.listUnitsStdout).filterMap (fun line =>
    if pyContains line "nix-build-" then
      match pySplitWs line with
      | [] => none
      | p :: _ => some (pyReplace (pyReplace p ".service" "") "nix-build-" "")
    else none)
  pySortedSet repos

/-- `is_build_running`: `systemctl is-active nix-build-{repo}` stdout, stripped,
equals `"active"`. -/
def is_build_running (env : Env) (repo : String) : Bool :=
  pyStrip (env.isActiveStdout ("nix-build-" ++ repo)) == "active"

/-- `is_cache_running`: `systemctl is-active harmonia` stdout, stripped, equals
`"active"`. -/
def is_cache_running (env : Env) : Bool :=
  pyStrip (env.isActiveStdout "harmonia") == "active"

/-- `get_build_status`: read the persisted status file and merge with the live
probe.  Missing file: a fresh record with `is_running=False` (the probe is not
consulted on this branch).  Readable file: the parsed record with its
`is_running` field overwritten by the live probe.  Unreadable or malformed
file: a fresh record with `is_running` from the live probe. -/
def get_build_status (env : Env) (repo : String) : BuildStatus :=
  match env.statusFile repo with
  | none => { is_running := false, repository := repo }
  | some (.ok s) => { s with is_running := is_build_running env repo }
  | some .error => { is_running := is_build_running env repo, repository := repo }

/-! ## Model of `tail -n k file` -/

/-- Whether the file content ends with a newline. -/
def endsWithNl (s : List Char) : Bool := s.getLast? == some '\n'

/-- Lines of a file in the sense of `tail(1)`: a line is a maximal
newline-terminated segment, plus a final unterminated segment when the file
does not end with a newline.  An empty file has no lines. -/
def tailFileLines (s : List Char) : List (List Char) :=
  if s.isEmpty then []
  else if endsWithNl s then (nlSplitChars s).dropLast
  else nlSplitChars s

/-- Count passed on the `tail -n` command line: the server passes `str(k)` for
an `int` `k`, and GNU `tail -n -5` means the same "last 5 lines" as
`tail -n 5`, so the effective count is the absolute value. -/
def tailCount (k : Int) : Nat := k.natAbs

/-- stdout of `tail -n k` on a file with content `s`: the last `k` lines,
byte for byte — each kept line terminated as in the file, so the output ends
with a newline exactly when the file does (and is empty when nothing is
kept). -/
def tailOutput (k : Nat) (s : List Char) : List Char :=
  let ls := tailFileLines s
  let kept := ls.drop (ls.length - k)
  if kept.isEmpty then []
  else List.intercalate ['\n'] kept ++ (if endsWithNl s then ['\n'] else [])

/-! ## Endpoints -/

/-- Detail message of the 404 raised for an unknown repository. -/
def notFoundError (repository : String) : HttpError :=
  { status_code := 404, detail := "Repository " ++ repository ++ " not found" }

/-- Result of one call to the `/build/trigger/{repository}` endpoint: the HTTP
response together with whether a start request was issued to systemd
(`sudo systemctl start` was invoked). -/
structure TriggerResult where
  response : Except HttpError BuildTriggerResponse
  startRequested : Bool
deriving Repr

/-- `trigger_build` endpoint: 404 when the repository is not in the discovery
set; `already_running` without a start request when the live probe reports the
unit active; otherwise issue the start request and report `triggered` on
success or a 500 carrying stderr on failure. -/
def trigger_build (env : Env) (repository : String) : TriggerResult :=
  if repository ∈ get_available_repos env then
    if is_build_running env repository then
      { response := .ok
          { status := .already_running
            message := "Build for " ++ repository ++ " already in progress"
            repository := repository }
        startRequested := false }
    else if env.startUnitOk ("nix-build-" ++ repository) then
      { response := .ok
          { status := .triggered
            message := "Build started for " ++ repository
            repository := repository }
        startRequested := true }
    else
      { response := .error
          { status_code := 500
            detail := "Build trigger failed: " ++
              env.startStderr ("nix-build-" ++ repository) }
        startRequested := true }
  else
    { response := .error (notFoundError repository), startRequested := false }

/-- `build_status` endpoint: 404 when the repository is not in the discovery
set, otherwise the reconciled status. -/
def build_status (env : Env) (repository : String) : Except HttpError BuildStatus :=
  if repository ∈ get_available_repos env then
    .ok (get_build_status env repository)
  else
    .error (notFoundError repository)

/-- `build_logs` endpoint: 404 when the repository is not in the discovery set;
an empty list when the log file does not exist; otherwise the `lines` query
parameter (default 100) clamped to 10000, handed to `tail -n`, and the
resulting stdout split on `"\n"` Python-style. -/
def build_logs (env : Env) (repository : String) (lines : Int := 100) :
    Except HttpError (List String) :=
  if repository ∈ get_available_repos env then
    match env.logFile repository with
    | none => .ok []
    | some content =>
      let lines2 := min lines 10000
      .ok ((nlSplitChars (tailOutput (tailCount lines2) content.data)).map String.mk)
  else
    .error (notFoundError repository)

/-- `health` endpoint: `degraded` exactly when the cache probe is false,
`healthy` otherwise, always carrying the probe value and the discovery-set
snapshot. -/
def health (env : Env) : HealthCheck :=
  let cache_running := is_cache_running env
  let repos := get_available_repos env
  { status := if !cache_running then .degraded else .healthy
    cache_running := cache_running
    repositories := repos }


/-! ## Concrete demonstration environment -/

/-- Sample `systemctl list-units` output with two managed units. -/
def demoStdout : String :=
  "nix-build-alpha.service loaded active running Nix build\n  nix-build-beta.service loaded inactive dead Nix build\n"

/-- Sample persisted record for `alpha`; note it carries its own
`is_running := false` field. -/
def alphaRecord : BuildStatus :=
  { is_running := false
    last_start := some "2024-01-01T00:00:00"
    last_finish := some "2024-01-01T00:10:00"
    last_status := some .success
    last_commit := some "abc123"
    repository := "alpha" }

/-- Demonstration world: units `alpha` (live build active, valid record,
two-line log) and `beta` (idle, corrupt record, no log); cache active. -/
def demoEnv : Env :=
  { listUnitsStdout := demoStdout
    isActiveStdout := fun unit =>
      if unit == "nix-build-alpha" then "active\n"
      else if unit == "harmonia" then "active\n"
      else "inactive\n"
    statusFile := fun repo =>
      if repo == "alpha" then some (.ok alphaRecord)
      else if repo == "beta" then some .error
      else none
    logFile := fun repo => if repo == "alpha" then some "line1\nline2\n" else none
    startUnitOk := fun _ => true
    startStderr := fun _ => "" }

/-- Demonstration world with every status file removed. -/
def demoEnvNoFiles : Env := { demoEnv with statusFile := fun _ => none }

/-- Demonstration world where the log file of `beta` exists but is empty. -/
def demoEnvEmptyLog : Env :=
  { demoEnv with logFile := fun repo => if repo == "beta" then some "" else demoEnv.logFile repo }

/-! ## Lemmas about the tail model -/

theorem intercalate_cons_cons (sep a b : List Char) (tl : List (List Char)) :
    List.intercalate sep (a :: b :: tl) = a ++ sep ++ List.intercalate sep (b :: tl) := by
  simp [List.intercalate, List.append_assoc]

theorem intercalate_concat (sep l : List Char) (ls : List (List Char)) (h : ls ≠ []) :
    List.intercalate sep (ls ++ [l]) = List.intercalate sep ls ++ sep ++ l := by
  induction ls with
  | nil => exact absurd rfl h
  | cons a tl ih =>
    cases tl with
    | nil => simp [List.intercalate]
    | cons b tl' =>
      rw [List.cons_append, List.cons_append, intercalate_cons_cons,
        ← List.cons_append, ih (by simp), intercalate_cons_cons]
      simp [List.append_assoc]

theorem nlSplit_terminated (ls : List (List Char)) (hnl : ∀ l ∈ ls, '\n' ∉ l)
    (h : ls ≠ []) :
    nlSplitChars (List.intercalate ['\n'] ls ++ ['\n']) = ls ++ [[]] := by
  have e : List.intercalate ['\n'] ls ++ ['\n'] = List.intercalate ['\n'] (ls ++ [[]]) := by
    rw [intercalate_concat _ _ _ h, List.append_nil]
  rw [e, nlSplitChars]
  exact List.splitOn_intercalate (ls ++ [[]]) '\n'
    (by
      intro l hl
      rcases List.mem_append.1 hl with h1 | h1
      · exact hnl l h1
      · simp only [List.mem_singleton] at h1
        simp [h1])
    (by simp)

theorem nlSplit_of_rep (ls : List (List Char)) (hnl : ∀ l ∈ ls, '\n' ∉ l)
    (h : ls ≠ []) :
    nlSplitChars (List.intercalate ['\n'] ls) = ls := by
  rw [nlSplitChars]
  exact List.splitOn_intercalate ls '\n' hnl h


theorem getLast?_intercalate_ne_nl (ls : List (List Char)) (hnl : ∀ l ∈ ls, '\n' ∉ l)
    (h : ls ≠ []) (hlast : ls.getLast? ≠ some []) :
    ∃ c, (List.intercalate ['\n'] ls).getLast? = some c ∧ c ≠ '\n' := by
  rcases List.eq_nil_or_concat' ls with rfl | ⟨ls', l, rfl⟩
  · exact absurd rfl h
  · have hlne : l ≠ [] := by
      intro hl
      exact hlast (by simp [hl])
    have hlmem : l ∈ ls' ++ [l] := by simp
    have hcne : ∀ c ∈ l, c ≠ '\n' := fun c hc hcnl => hnl l hlmem (hcnl ▸ hc)
    have hgl : l.getLast? = some (l.getLast hlne) := List.getLast?_eq_getLast l hlne
    cases ls' with
    | nil =>
      refine ⟨l.getLast hlne, ?_, hcne _ (List.getLast_mem hlne)⟩
      simpa [List.intercalate] using hgl
    | cons a tl =>
      refine ⟨l.getLast hlne, ?_, hcne _ (List.getLast_mem hlne)⟩
      rw [intercalate_concat _ _ _ (by simp), List.append_assoc, List.getLast?_append]
      rw [List.getLast?_append, hgl]
      rfl

theorem tailFileLines_of_rep (s : List Char) (lsC : List (List Char)) (term : Bool)
    (hrep : s = List.intercalate ['\n'] lsC ++ (if term then ['\n'] else []))
    (hnl : ∀ l ∈ lsC, '\n' ∉ l)
    (hcanon : lsC = [] → term = false)
    (hlast : term = false → lsC.getLast? ≠ some []) :
    tailFileLines s = lsC ∧ endsWithNl s = term := by
  cases term with
  | true =>
    rw [if_pos rfl] at hrep
    subst hrep
    have hne : lsC ≠ [] := by
      intro h
      simpa [h] using hcanon h
    have hend : endsWithNl (List.intercalate ['\n'] lsC ++ ['\n']) = true := by
      simp [endsWithNl, List.getLast?_concat]
    refine ⟨?_, hend⟩
    rw [tailFileLines]
    rw [if_neg (by simp), if_pos hend]
    rw [nlSplit_terminated lsC hnl hne, List.dropLast_concat]
  | false =>
    rw [if_neg (by simp), List.append_nil] at hrep
    subst hrep
    rcases List.eq_nil_or_concat' lsC with rfl | ⟨ls', l, hc⟩
    · refine ⟨?_, ?_⟩ <;> simp [tailFileLines, endsWithNl, List.intercalate]
    · have hne : lsC ≠ [] := by rw [hc]; simp
      obtain ⟨c, hcl, hcne⟩ := getLast?_intercalate_ne_nl lsC hnl hne (hlast rfl)
      have hsne : List.intercalate ['\n'] lsC ≠ [] := by
        intro h0
        rw [h0] at hcl
        simp at hcl
      have hend : endsWithNl (List.intercalate ['\n'] lsC) = false := by
        simp [endsWithNl, hcl, hcne]
      refine ⟨?_, hend⟩
      rw [tailFileLines]
      rw [if_neg (by simpa using hsne), if_neg (by simp [hend])]
      exact nlSplit_of_rep lsC hnl hne


theorem nlSplit_tailOutput (k : Nat) (s : List Char) (lsC : List (List Char)) (term : Bool)
    (hrep : s = List.intercalate ['\n'] lsC ++ (if term then ['\n'] else []))
    (hnl : ∀ l ∈ lsC, '\n' ∉ l)
    (hcanon : lsC = [] → term = false)
    (hlast : term = false → lsC.getLast? ≠ some []) :
    nlSplitChars (tailOutput k s) =
      (if (lsC.drop (lsC.length - k)).isEmpty then [[]]
       else lsC.drop (lsC.length - k) ++ (if term then [[]] else [])) := by
  obtain ⟨hfl, hend⟩ := tailFileLines_of_rep s lsC term hrep hnl hcanon hlast
  rw [tailOutput]
  rw [hfl, hend]
  by_cases hke : (lsC.drop (lsC.length - k)).isEmpty
  · rw [if_pos hke, if_pos hke]
    simp [nlSplitChars]
  · have hkeptne : (lsC.drop (lsC.length - k)) ≠ [] := by simpa using hke
    have hknl : ∀ l ∈ lsC.drop (lsC.length - k), '\n' ∉ l :=
      fun l hl => hnl l (List.mem_of_mem_drop hl)
    rw [if_neg hke, if_neg hke]
    cases term with
    | true =>
      rw [if_pos rfl, if_pos rfl]
      exact nlSplit_terminated _ hknl hkeptne
    | false =>
      rw [if_neg (by simp), if_neg (by simp), List.append_nil, List.append_nil]
      exact nlSplit_of_rep _ hknl hkeptne


theorem build_logs_of_rep (env : Env) (repo : String) (n : Int) (content : String)
    (lsC : List (List Char)) (term : Bool)
    (hrepo : repo ∈ get_available_repos env)
    (hlog : env.logFile repo = some content)
    (hrep : content.data = List.intercalate ['\n'] lsC ++ (if term then ['\n'] else []))
    (hnl : ∀ l ∈ lsC, '\n' ∉ l)
    (hcanon : lsC = [] → term = false)
    (hlast : term = false → lsC.getLast? ≠ some []) :
    build_logs env repo n =
      .ok (if (lsC.drop (lsC.length - tailCount (min n 10000))).isEmpty then [""]
           else (lsC.drop (lsC.length - tailCount (min n 10000))).map String.mk ++
             (if term then [""] else [])) := by
  rw [build_logs, if_pos hrepo, hlog]
  show Except.ok (List.map String.mk
    (nlSplitChars (tailOutput (tailCount (min n 10000)) content.data))) = _
  rw [nlSplit_tailOutput (tailCount (min n 10000)) content.data lsC term hrep hnl hcanon hlast]
  by_cases hke : (lsC.drop (lsC.length - tailCount (min n 10000))).isEmpty
  · rw [if_pos hke, if_pos hke]
    rfl
  · rw [if_neg hke, if_neg hke]
    cases term with
    | true =>
      rw [if_pos rfl, if_pos rfl]
      simp
    | false =>
      rw [if_neg (by simp), if_neg (by simp), List.append_nil, List.append_nil]


/-! ## Claims -/

/-- C1.  The claim says: for a unit with no persisted status record,
`get_build_status` returns empty historical fields and `is_running` equal to
the live probe `is_build_running`.  The code does return empty historical
fields, but hard-codes `is_running=False` on the missing-file branch without
consulting the probe, so a unit that is live-active but has never written a
status file is reported as not running.  This theorem exhibits the divergence
at a concrete input: the probe reports `alpha` active, the status file is
absent, yet the endpoint result carries `is_running = false`. -/
theorem c1_missing_record_ignores_live_probe :
    demoEnvNoFiles.statusFile "alpha" = none ∧
    is_build_running demoEnvNoFiles "alpha" = true ∧
    get_build_status demoEnvNoFiles "alpha" =
      { is_running := false, repository := "alpha" } ∧
    build_status demoEnvNoFiles "alpha" =
      .ok { is_running := false, repository := "alpha" } := by
  refine ⟨rfl, by decide, by decide, by decide⟩

/-- C2.  For every unit whose persisted status file exists — whatever it
contains: a record claiming success or failure, a record with its own
`is_running` field, or a corrupt record — `get_build_status` reports
`is_running = true` whenever the live probe reports the unit active. -/
theorem c2_live_probe_overrides_record (env : Env) (repo : String) (r : StatusRead)
    (hfile : env.statusFile repo = some r)
    (hrun : is_build_running env repo = true) :
    (get_build_status env repo).is_running = true := by
  cases r <;> simp [get_build_status, hfile, hrun]

/-- C2 witness: `alpha` has a persisted record claiming success with its own
`is_running := false` field, and the live probe reports it active; the
reconciled status still says `is_running = true`. -/
theorem c2_witness :
    demoEnv.statusFile "alpha" = some (.ok alphaRecord) ∧
    alphaRecord.is_running = false ∧
    alphaRecord.last_status = some .success ∧
    is_build_running demoEnv "alpha" = true ∧
    (get_build_status demoEnv "alpha").is_running = true :=
  ⟨by decide, by decide, by decide, by decide,
    c2_live_probe_overrides_record demoEnv "alpha" (.ok alphaRecord) (by decide) (by decide)⟩

/-- C3.  For every repository identifier not in the discovery set, the three
endpoints `build_status`, `trigger_build` and `build_logs` all fail with the
404 `NotFound` error, and `trigger_build` issues no start request. -/
theorem c3_unknown_repository_not_found (env : Env) (repo : String) (n : Int)
    (h : repo ∉ get_available_repos env) :
    build_status env repo = .error (notFoundError repo) ∧
    (trigger_build env repo).response = .error (notFoundError repo) ∧
    (trigger_build env repo).startRequested = false ∧
    build_logs env repo n = .error (notFoundError repo) ∧
    (notFoundError repo).status_code = 404 := by
  refine ⟨?_, ?_, ?_, ?_, rfl⟩ <;> simp [build_status, trigger_build, build_logs, h]

/-- C3 witness: `gamma` is not among the discovered units of the
demonstration world. -/
theorem c3_witness :
    "gamma" ∉ get_available_repos demoEnv ∧
    build_status demoEnv "gamma" = .error (notFoundError "gamma") ∧
    (trigger_build demoEnv "gamma").response = .error (notFoundError "gamma") ∧
    (trigger_build demoEnv "gamma").startRequested = false ∧
    build_logs demoEnv "gamma" 100 = .error (notFoundError "gamma") ∧
    (notFoundError "gamma").status_code = 404 :=
  ⟨by decide, c3_unknown_repository_not_found demoEnv "gamma" 100 (by decide)⟩

/-- C4.  For every discovered unit whose live probe reports it active,
`trigger_build` answers `already_running` and issues no start request to the
supervisor.  The endpoint is a pure function of the world state, so repeated
calls while the probe keeps reporting the unit active all yield this same
no-start result. -/
theorem c4_trigger_on_running_unit_is_noop (env : Env) (repo : String)
    (hrepo : repo ∈ get_available_repos env)
    (hrun : is_build_running env repo = true) :
    trigger_build env repo =
      { response := .ok
          { status := .already_running
            message := "Build for " ++ repo ++ " already in progress"
            repository := repo }
        startRequested := false } := by
  simp [trigger_build, hrepo, hrun]

/-- C4 witness: triggering the active unit `alpha`. -/
theorem c4_witness :
    "alpha" ∈ get_available_repos demoEnv ∧
    is_build_running demoEnv "alpha" = true ∧
    trigger_build demoEnv "alpha" =
      { response := .ok
          { status := .already_running
            message := "Build for " ++ "alpha" ++ " already in progress"
            repository := "alpha" }
        startRequested := false } :=
  ⟨by decide, by decide, c4_trigger_on_running_unit_is_noop demoEnv "alpha" (by decide) (by decide)⟩


/-- C6.  For every world state, `health` reports `degraded` exactly when the
cache probe is false and `healthy` exactly when it is true — independent of
the unit set, whose snapshot (together with the probe value) is always carried
in the response. -/
theorem c6_health_tracks_cache_probe (env : Env) :
    ((health env).status = .degraded ↔ is_cache_running env = false) ∧
    ((health env).status = .healthy ↔ is_cache_running env = true) ∧
    (health env).cache_running = is_cache_running env ∧
    (health env).repositories = get_available_repos env := by
  cases h : is_cache_running env <;> simp [health, h]

/-- C6 witness: in the demonstration world the cache probe is true and the
verdict is `healthy`, carrying the probe value and the snapshot. -/
theorem c6_witness :
    (health demoEnv).cache_running = is_cache_running demoEnv ∧
    (health demoEnv).repositories = get_available_repos demoEnv ∧
    (health demoEnv).status = .healthy := by
  have h := c6_health_tracks_cache_probe demoEnv
  exact ⟨h.2.2.1, h.2.2.2, h.2.1.mpr (by decide)⟩

/-- C7.  For every unit whose persisted status file exists but cannot be read,
parsed or validated, `get_build_status` returns a record with all historical
fields empty and `is_running` taken from the live probe; the embedded function
is total, so no error propagates. -/
theorem c7_corrupt_record_treated_as_absent (env : Env) (repo : String)
    (h : env.statusFile repo = some .error) :
    get_build_status env repo =
      { is_running := is_build_running env repo, repository := repo } := by
  simp [get_build_status, h]

/-- C7 witness: `beta` has a corrupt status file and an inactive probe; its
status comes back with empty history and `is_running = false` from the
probe. -/
theorem c7_witness :
    demoEnv.statusFile "beta" = some .error ∧
    is_build_running demoEnv "beta" = false ∧
    get_build_status demoEnv "beta" =
      { is_running := is_build_running demoEnv "beta", repository := "beta" } ∧
    (get_build_status demoEnv "beta").last_status = none :=
  ⟨by decide, by decide, c7_corrupt_record_treated_as_absent demoEnv "beta" (by decide),
    by decide⟩

/-- C8.  For every discovered unit whose log file does not exist, `build_logs`
answers with the empty list of lines, not an error, for every requested line
count. -/
theorem c8_missing_log_yields_empty (env : Env) (repo : String) (n : Int)
    (hrepo : repo ∈ get_available_repos env)
    (hlog : env.logFile repo = none) :
    build_logs env repo n = .ok [] := by
  simp [build_logs, hrepo, hlog]

/-- C8 witness: `beta` is discovered but has no log file. -/
theorem c8_witness :
    "beta" ∈ get_available_repos demoEnv ∧
    demoEnv.logFile "beta" = none ∧
    build_logs demoEnv "beta" 100 = .ok [] :=
  ⟨by decide, by decide, c8_missing_log_yields_empty demoEnv "beta" 100 (by decide) (by decide)⟩

/-- C9.  For every world state — any probe results and any discovery set —
the verdict of `health` is never `down`: it is always `healthy` or
`degraded`. -/
theorem c9_health_never_down (env : Env) :
    (health env).status ≠ HealthStatus.down ∧
    ((health env).status = .healthy ∨ (health env).status = .degraded) := by
  cases h : is_cache_running env <;> simp [health, h]


/-- C9 witness: the demonstration world's verdict is not `down`. -/
theorem c9_witness : (health demoEnv).status ≠ HealthStatus.down :=
  (c9_health_never_down demoEnv).1

/-- C5.  For every discovered unit with a log file of lines `lsC` (given by
its canonical decomposition into newline-free lines plus termination flag) and
every requested count `n ≥ 0`, `build_logs` returns exactly the last
`min n 10000` file lines — a suffix of the file's lines, hence in original
order, of length at most `(min n 10000).toNat`, possibly followed by the one
empty string that Python's `split("\n")` appends for a newline-terminated
tail; and whenever the file has at most `min n 10000` lines (in particular for
`n = 10000` and a file of `k ≤ 10000` lines) the window is the whole file. -/
theorem c5_tail_log_clamped_window (env : Env) (repo : String) (n : Int)
    (content : String) (lsC : List (List Char)) (term : Bool)
    (hn : 0 ≤ n)
    (hrepo : repo ∈ get_available_repos env)
    (hlog : env.logFile repo = some content)
    (hrep : content.data = List.intercalate ['\n'] lsC ++ (if term then ['\n'] else []))
    (hnl : ∀ l ∈ lsC, '\n' ∉ l)
    (hcanon : lsC = [] → term = false)
    (hlast : term = false → lsC.getLast? ≠ some []) :
    (build_logs env repo n =
        .ok ((lsC.drop (lsC.length - (min n 10000).toNat)).map String.mk) ∨
     build_logs env repo n =
        .ok ((lsC.drop (lsC.length - (min n 10000).toNat)).map String.mk ++ [""])) ∧
    (lsC.drop (lsC.length - (min n 10000).toNat)).length ≤ (min n 10000).toNat ∧
    lsC.drop (lsC.length - (min n 10000).toNat) <:+ lsC ∧
    (lsC.length ≤ (min n 10000).toNat →
      lsC.drop (lsC.length - (min n 10000).toNat) = lsC) := by
  have hcnt : tailCount (min n 10000) = (min n 10000).toNat := by
    rw [tailCount]
    omega
  have hb := build_logs_of_rep env repo n content lsC term hrepo hlog hrep hnl hcanon hlast
  rw [hcnt] at hb
  refine ⟨?_, ?_, ?_, ?_⟩
  · by_cases hke : (lsC.drop (lsC.length - (min n 10000).toNat)).isEmpty
    · right
      rw [if_pos hke] at hb
      have he : lsC.drop (lsC.length - (min n 10000).toNat) = [] := by simpa using hke
      rw [he]
      simpa using hb
    · rw [if_neg hke] at hb
      cases term with
      | true =>
        right
        rw [if_pos rfl] at hb
        exact hb
      | false =>
        left
        rw [if_neg (by simp), List.append_nil] at hb
        exact hb
  · rw [List.length_drop]
    omega
  · exact List.drop_suffix _ _
  · intro hle
    have h0 : lsC.length - (min n 10000).toNat = 0 := by omega
    rw [h0, List.drop_zero]

/-- C5 witness: the two-line terminated log of `alpha` with `n = 2` comes back
whole and in order (here with the trailing split artifact). -/
theorem c5_witness :
    (0 : Int) ≤ 2 ∧
    (build_logs demoEnv "alpha" 2 = .ok ["line1", "line2"] ∨
     build_logs demoEnv "alpha" 2 = .ok ["line1", "line2", ""]) := by
  have h := c5_tail_log_clamped_window demoEnv "alpha" 2 "line1\nline2\n"
      [['l','i','n','e','1'], ['l','i','n','e','2']] true (by decide) (by decide) (by decide)
      (by decide) (by decide) (by decide) (by decide)
  exact ⟨by decide, h.1⟩


/-- C10.  For every discovered unit whose log file exists (given by its
canonical line decomposition), `build_logs` returns a list with at least one
element: the tail output is split on newline characters, so a
newline-terminated log whose `k` lines fit in the clamped window yields
exactly those `k` lines followed by one trailing empty string, and an empty
existing log file yields the one-element list containing the empty string,
never the empty list. -/
theorem c10_split_has_trailing_artifact (env : Env) (repo : String) (n : Int)
    (content : String) (lsC : List (List Char)) (term : Bool)
    (hrepo : repo ∈ get_available_repos env)
    (hlog : env.logFile repo = some content)
    (hrep : content.data = List.intercalate ['\n'] lsC ++ (if term then ['\n'] else []))
    (hnl : ∀ l ∈ lsC, '\n' ∉ l)
    (hcanon : lsC = [] → term = false)
    (hlast : term = false → lsC.getLast? ≠ some []) :
    ∃ out : List String, build_logs env repo n = .ok out ∧ 1 ≤ out.length ∧
      (term = true → lsC.length ≤ tailCount (min n 10000) →
        out = lsC.map String.mk ++ [""]) ∧
      (lsC = [] → out = [""]) := by
  have hb := build_logs_of_rep env repo n content lsC term hrepo hlog hrep hnl hcanon hlast
  refine ⟨_, hb, ?_, ?_, ?_⟩
  · by_cases hke : (lsC.drop (lsC.length - tailCount (min n 10000))).isEmpty
    · rw [if_pos hke]
      simp
    · rw [if_neg hke]
      have hne : lsC.drop (lsC.length - tailCount (min n 10000)) ≠ [] := by simpa using hke
      cases term with
      | true => simp
      | false =>
        rw [if_neg (by simp), List.append_nil, List.length_map]
        exact List.length_pos.mpr hne
  · intro ht hlen
    have h0 : lsC.length - tailCount (min n 10000) = 0 := by omega
    rw [h0, List.drop_zero, ht]
    by_cases h0' : lsC.isEmpty
    · have : lsC = [] := by simpa using h0'
      rw [if_pos h0', this]
      simp
    · rw [if_neg h0', if_pos rfl]
  · intro h0
    subst h0
    simp

/-- C10 witness: the two-line terminated log of `alpha` with the default
`n = 100` yields three elements ending in the empty string, and the empty
existing log of `beta` (in the variant world) yields exactly `[""]`. -/
theorem c10_witness :
    build_logs demoEnv "alpha" 100 = .ok ["line1", "line2", ""] ∧
    build_logs demoEnvEmptyLog "beta" 100 = .ok [""] := by
  have h1 := c10_split_has_trailing_artifact demoEnv "alpha" 100 "line1\nline2\n"
      [['l','i','n','e','1'], ['l','i','n','e','2']] true (by decide) (by decide) (by decide)
      (by decide) (by decide) (by decide)
  have h2 := c10_split_has_trailing_artifact demoEnvEmptyLog "beta" 100 "" [] false
      (by decide) (by decide) (by decide) (by decide) (by decide) (by decide)
  obtain ⟨out1, hout1, -, hfull1, -⟩ := h1
  obtain ⟨out2, hout2, -, -, hempty2⟩ := h2
  constructor
  · rw [hout1, hfull1 rfl (by decide)]
    rfl
  · rw [hout2, hempty2 rfl]
end NixServe
